import Mathlib

/-!
Verification of the quiz application (`python_quiz`).

The repository under verification ships a React frontend
(`frontend/src/services/api.ts`, `frontend/src/types/quiz.ts`,
`frontend/src/store/quiz.tsx`, pages) together with Docker configuration;
the FastAPI backend holding the Quiz Session Engine, the Session Store and
the Statistics Aggregator is referenced by the documentation and the
frontend but its Python sources are not part of the distributed tree.
Definitions for the engine side are therefore modelled from the
specification (sections 3, 4, 6, 7), as marked in their doc comments;
the frontend state management (`quizReducer`) and the API type shapes are
embedded directly from the TypeScript sources.

Numbers that the code treats as JS `number` percentages are modelled as
rationals (`ℚ`); timestamps are abstract `Nat` clock values.
-/

namespace Quiz

/-- Modelled from the spec, section 3 (the backend data model is missing
from the tree): a catalog question
`{id, text, options, correctOptionIndex, explanation?, category?,
difficulty?, active}`. -/
structure Question where
  id : Nat
  text : String
  options : List String
  correctOptionIndex : Nat
  explanation : Option String
  category : Option String
  difficulty : Option String
  active : Bool
deriving Repr, DecidableEq

/-- Modelled from the spec, section 3: an AnswerRecord
`{questionId, selectedOptionIndex, correct, answeredAt}`. -/
structure AnswerRecord where
  questionId : Nat
  selectedOptionIndex : Nat
  correct : Bool
  answeredAt : Nat
deriving Repr, DecidableEq

/-- Modelled from the spec, section 3: a Session
`{sessionId, questionSequence, currentIndex, answers, startedAt,
completedAt?}`. -/
structure Session where
  sessionId : Nat
  questionSequence : List Nat
  currentIndex : Nat
  answers : List AnswerRecord
  startedAt : Nat
  completedAt : Option Nat
deriving Repr, DecidableEq

/-- `N`: the number of questions of the session (length of the snapshotted
question sequence). -/
def Session.N (s : Session) : Nat := s.questionSequence.length

/-- Modelled from the spec, section 3, derived views:
`score = count(answers where correct)`. -/
def Session.score (s : Session) : Nat :=
  (s.answers.filter (fun a => a.correct)).length

/-- Modelled from the spec, section 3, derived views:
`accuracy = score / len(answers) * 100` (0 when `len(answers) == 0`). -/
def Session.accuracy (s : Session) : ℚ :=
  if s.answers.length = 0 then 0
  else (s.score : ℚ) / (s.answers.length : ℚ) * 100

/-- Modelled from the spec, section 3, derived views:
`progressPercentage = currentIndex / N * 100`. -/
def Session.progressPercentage (s : Session) : ℚ :=
  (s.currentIndex : ℚ) / (s.N : ℚ) * 100

/-- Modelled from the spec, section 3, derived views:
`remaining = N - currentIndex`. -/
def Session.remaining (s : Session) : Nat := s.N - s.currentIndex

/-- Modelled from the spec, section 3, derived views:
`isCompleted = currentIndex == N`. -/
def Session.isCompleted (s : Session) : Bool := s.currentIndex == s.N

/-- Modelled from the spec, section 3: the process-wide LifetimeStatistics
aggregate owned by the Statistics Aggregator. -/
structure LifetimeStatistics where
  totalSessions : Nat
  totalQuestionsAnswered : Nat
  totalCorrectAnswers : Nat
  bestScore : Nat
  bestAccuracy : ℚ
deriving Repr, DecidableEq

/-- The all-zero aggregate the process starts with. -/
def initStats : LifetimeStatistics := ⟨0, 0, 0, 0, 0⟩

/-- Modelled from the spec, section 4.2:
`recordCompletedSession(score, totalQuestions, accuracy)` updates
`totalSessions += 1`, `totalQuestionsAnswered += totalQuestions`,
`totalCorrectAnswers += score`, `bestScore = max(bestScore, score)`,
`bestAccuracy = max(bestAccuracy, accuracy)`. -/
def recordCompletedSession (st : LifetimeStatistics)
    (score totalQuestions : Nat) (accuracy : ℚ) : LifetimeStatistics :=
  { totalSessions := st.totalSessions + 1
    totalQuestionsAnswered := st.totalQuestionsAnswered + totalQuestions
    totalCorrectAnswers := st.totalCorrectAnswers + score
    bestScore := max st.bestScore score
    bestAccuracy := max st.bestAccuracy accuracy }

/-- Modelled from the spec, section 4.2: the derived
`overallAccuracy = totalCorrectAnswers / totalQuestionsAnswered * 100`
(0 if the denominator is 0). -/
def overallAccuracy (st : LifetimeStatistics) : ℚ :=
  if st.totalQuestionsAnswered = 0 then 0
  else (st.totalCorrectAnswers : ℚ) / (st.totalQuestionsAnswered : ℚ) * 100

/-- Folding a run of completed sessions `(score, totalQuestions, accuracy)`
into the aggregate, starting from the zero statistics. -/
def statsFold (l : List (Nat × Nat × ℚ)) : LifetimeStatistics :=
  l.foldl (fun st x => recordCompletedSession st x.1 x.2.1 x.2.2) initStats

/-- Modelled from the spec, section 7: the error taxonomy of the Engine
(`InvalidOption` is the bad-option-index case that section 4.1 names for
`submitAnswer`; section 7 files it under the 400 class). -/
inductive QuizError where
  | InvalidRequest
  | InvalidOption
  | SessionNotFound
  | NoQuestionsAvailable
  | SessionCompleted
  | SessionNotCompleted
  | InternalError
deriving Repr, DecidableEq

/-- Modelled from the spec, section 2: the Engine's state, the Session
Store contents together with the Aggregator's lifetime statistics. -/
structure EngineState where
  sessions : List Session
  stats : LifetimeStatistics
deriving Repr, DecidableEq

/-- The empty store with zeroed statistics. -/
def initEngine : EngineState := ⟨[], initStats⟩

/-- Looking a session up in the store by its id. -/
def findSession (st : EngineState) (sid : Nat) : Option Session :=
  st.sessions.find? (fun s => s.sessionId == sid)

/-- Writing an updated session back to the store under its id. -/
def setSession (l : List Session) (sid : Nat) (s' : Session) : List Session :=
  l.map (fun t => if t.sessionId == sid then s' else t)

/-- Modelled from the spec, section 4.1: the conjunctive, case-sensitive
exact-match filter on active questions used by `createSession`. -/
def matchesFilter (category difficulty : Option String) (q : Question) : Bool :=
  q.active
    && (match category with
        | none => true
        | some c => q.category == some c)
    && (match difficulty with
        | none => true
        | some d => q.difficulty == some d)

/-- Modelled from the spec, section 4.1: `createSession`. Fails
`InvalidRequest` when `requested ≤ 0`; filters the repository and fails
`NoQuestionsAvailable` on an empty pool; otherwise clamps the count to
`min(requested, poolSize)`, snapshots the (possibly shuffled) question
order and persists a fresh session with `currentIndex = 0`. The shuffle
of section 4.1 is abstracted by the `arrange` reordering argument (a
uniform permutation when shuffling, the identity otherwise). -/
def createSession (pool : List Question) (st : EngineState) (requested : Int)
    (category difficulty : Option String)
    (arrange : List Question → List Question)
    (newSid now : Nat) : Except QuizError (EngineState × Session) :=
  if requested ≤ 0 then .error .InvalidRequest
  else
    let filtered := pool.filter (matchesFilter category difficulty)
    if filtered.length = 0 then .error .NoQuestionsAvailable
    else
      let ordered := arrange filtered
      let n := min requested.toNat ordered.length
      let sess : Session :=
        ⟨newSid, (ordered.take n).map (fun q => q.id), 0, [], now, none⟩
      .ok ({ st with sessions := sess :: st.sessions }, sess)

/-- The catalog question the session currently points at:
`questionSequence[currentIndex]` resolved in the repository. -/
def currentQuestionOf (pool : List Question) (s : Session) : Option Question :=
  match s.questionSequence.get? s.currentIndex with
  | none => none
  | some qid => pool.find? (fun q => q.id == qid)

/-- The answer-free projection of a question that `getCurrentQuestion` is
allowed to return: it carries no `correctOptionIndex` and no
`explanation` (spec, section 4.1: must not leak the answer). -/
structure PublicQuestion where
  id : Nat
  text : String
  options : List String
  category : Option String
  difficulty : Option String
deriving Repr, DecidableEq

/-- Stripping a catalog question down to its public fields. -/
def Question.toPublic (q : Question) : PublicQuestion :=
  ⟨q.id, q.text, q.options, q.category, q.difficulty⟩

/-- Modelled from the spec, section 4.1: `getCurrentQuestion`. Fails
`SessionNotFound` for an unknown id, `SessionCompleted` when
`currentIndex == N`; otherwise returns the current question without its
answer key. A dangling question id is a store fault (`InternalError`). -/
def getCurrentQuestion (pool : List Question) (st : EngineState)
    (sid : Nat) : Except QuizError PublicQuestion :=
  match findSession st sid with
  | none => .error .SessionNotFound
  | some s =>
    if s.currentIndex == s.N then .error .SessionCompleted
    else
      match currentQuestionOf pool s with
      | none => .error .InternalError
      | some q => .ok q.toPublic

/-- Modelled from the spec, section 4.1: the `AnswerResult` returned by
`submitAnswer` (fields per `AnswerResponse` of
`frontend/src/types/quiz.ts`). -/
structure AnswerResult where
  sessionId : Nat
  questionId : Nat
  selectedOption : Nat
  correctAnswer : Nat
  isCorrect : Bool
  explanation : Option String
  currentScore : Nat
  currentAccuracy : ℚ
  isSessionCompleted : Bool
deriving Repr, DecidableEq

/-- Modelled from the spec, section 4.1: the session after the accepted
answer — `correct` computed against the current question's answer key,
the AnswerRecord appended, `currentIndex` incremented, `completedAt` set
when the increment reaches `N`. -/
def advanceSession (s : Session) (q : Question) (selected : Int)
    (now : Nat) : Session :=
  { s with currentIndex := s.currentIndex + 1
           answers := s.answers ++
             [⟨q.id, selected.toNat,
               selected.toNat == q.correctOptionIndex, now⟩]
           completedAt :=
             if s.currentIndex + 1 == s.N then some now
             else s.completedAt }

/-- Modelled from the spec, sections 4.1 and 4.2: the lifetime statistics
after an accepted answer — folded once, synchronously, exactly when the
session just completed. -/
def submitStats (stats : LifetimeStatistics) (s' : Session) :
    LifetimeStatistics :=
  if s'.isCompleted then
    recordCompletedSession stats s'.score s'.N s'.accuracy
  else stats

/-- Modelled from the spec, section 4.1: the `AnswerResult` payload built
from the answered question and the advanced session. -/
def answerResultOf (sid : Nat) (q : Question) (selected : Int)
    (s' : Session) : AnswerResult :=
  ⟨sid, q.id, selected.toNat, q.correctOptionIndex,
   selected.toNat == q.correctOptionIndex, q.explanation, s'.score,
   s'.accuracy, s'.isCompleted⟩

/-- Modelled from the spec, section 4.1: `submitAnswer`. Fails
`SessionNotFound` / `SessionCompleted` / `InvalidOption`
(`selectedOptionIndex ∉ [0,3]`); otherwise scores the current question,
appends the AnswerRecord, increments `currentIndex`, and on reaching `N`
sets `completedAt` and folds the finished session into the lifetime
statistics synchronously before returning. -/
def submitAnswer (pool : List Question) (st : EngineState) (sid : Nat)
    (selected : Int) (now : Nat) :
    Except QuizError (EngineState × AnswerResult) :=
  match findSession st sid with
  | none => .error .SessionNotFound
  | some s =>
    if s.currentIndex == s.N then .error .SessionCompleted
    else if selected < 0 || 3 < selected then .error .InvalidOption
    else
      match currentQuestionOf pool s with
      | none => .error .InternalError
      | some q =>
        let s' := advanceSession s q selected now
        .ok ({ sessions := setSession st.sessions sid s'
               stats := submitStats st.stats s' },
             answerResultOf sid q selected s')

/-- One wrongly answered question in a results report, with the learner's
choice and the correct choice (per `WrongQuestionDetail` of
`frontend/src/types/quiz.ts`). -/
structure WrongDetail where
  questionId : Nat
  selectedOption : Nat
  correctAnswer : Nat
  answeredAt : Nat
deriving Repr, DecidableEq

/-- The wrong-answer report rows: the records whose `correct` flag is
false, in answer order, each joined with the catalog's correct option. -/
def wrongDetails (pool : List Question) (answers : List AnswerRecord) :
    List WrongDetail :=
  answers.filterMap (fun a =>
    if a.correct then none
    else
      (pool.find? (fun q => q.id == a.questionId)).map (fun q =>
        ⟨a.questionId, a.selectedOptionIndex, q.correctOptionIndex,
         a.answeredAt⟩))

/-- Modelled from the spec, section 4.1: the full session report of
`getResults` (per `ResultsResponse` of `frontend/src/types/quiz.ts`). -/
structure ResultsReport where
  sessionId : Nat
  totalQuestions : Nat
  score : Nat
  accuracy : ℚ
  wrongCount : Nat
  wrongQuestions : List WrongDetail
  startedAt : Nat
  completedAt : Option Nat
  durationSeconds : Option Nat
deriving Repr, DecidableEq

/-- Modelled from the spec, section 4.1: `getResults`. Fails
`SessionNotFound` for an unknown id and `SessionNotCompleted` before
completion; after completion reports the score, the accuracy, the
duration and the ordered wrong-answer list. -/
def getResults (pool : List Question) (st : EngineState) (sid : Nat) :
    Except QuizError ResultsReport :=
  match findSession st sid with
  | none => .error .SessionNotFound
  | some s =>
    if s.isCompleted then
      let wrong := wrongDetails pool s.answers
      .ok ⟨s.sessionId, s.N, s.score, s.accuracy, wrong.length, wrong,
           s.startedAt, s.completedAt,
           s.completedAt.map (fun t => t - s.startedAt)⟩
    else .error .SessionNotCompleted

/-- Modelled from the spec, section 3, derived views, and section 4.1:
the read-only progress snapshot of `getProgress`. -/
structure ProgressView where
  sessionId : Nat
  currentIndex : Nat
  totalQuestions : Nat
  score : Nat
  accuracy : ℚ
  progressPercentage : ℚ
  isCompleted : Bool
  remainingQuestions : Nat
deriving Repr, DecidableEq

/-- Modelled from the spec, section 4.1: `getProgress`, the derived-view
snapshot of a stored session. Fails `SessionNotFound`. -/
def getProgress (st : EngineState) (sid : Nat) :
    Except QuizError ProgressView :=
  match findSession st sid with
  | none => .error .SessionNotFound
  | some s =>
    .ok ⟨s.sessionId, s.currentIndex, s.N, s.score, s.accuracy,
         s.progressPercentage, s.isCompleted, s.remaining⟩

/-- Modelled from the spec, section 4.2: the `getStatistics` payload, the
lifetime counters plus the derived overall accuracy (per
`StatisticsResponse` of `frontend/src/types/quiz.ts`). -/
structure StatisticsView where
  totalSessions : Nat
  totalQuestionsAnswered : Nat
  totalCorrectAnswers : Nat
  overallAccuracy : ℚ
  bestScore : Nat
  bestAccuracy : ℚ
deriving Repr, DecidableEq

/-- Modelled from the spec, section 4.2: `getStatistics`. -/
def getStatistics (st : LifetimeStatistics) : StatisticsView :=
  ⟨st.totalSessions, st.totalQuestionsAnswered, st.totalCorrectAnswers,
   overallAccuracy st, st.bestScore, st.bestAccuracy⟩

/-- Modelled from the spec, sections 6 and 7: an API response body is
either a success envelope `{success: true, data, timestamp}` or a failure
envelope `{success: false, error: {code, message}}`. -/
inductive ApiBody (α : Type) where
  | success (data : α) (timestamp : Nat)
  | failure (code : QuizError) (message : String)
deriving Repr, DecidableEq

/-- Modelled from the spec, section 7: the HTTP status of each error of
the taxonomy. -/
def httpStatus : QuizError → Nat
  | .InvalidRequest => 400
  | .InvalidOption => 400
  | .SessionNotFound => 404
  | .NoQuestionsAvailable => 409
  | .SessionCompleted => 409
  | .SessionNotCompleted => 409
  | .InternalError => 500

/-- Modelled from the spec, section 7: the human-readable message attached
to each error code. -/
def errorMessage : QuizError → String
  | .InvalidRequest => "invalid request"
  | .InvalidOption => "invalid option index"
  | .SessionNotFound => "session not found"
  | .NoQuestionsAvailable => "no questions available"
  | .SessionCompleted => "session already completed"
  | .SessionNotCompleted => "session not completed"
  | .InternalError => "internal error"

/-- Modelled from the spec, sections 6 and 7: the API layer's wrapping of
an Engine outcome into a response body and an HTTP status (200 on
success, the taxonomy's status on failure). -/
def wrapResponse {α : Type} (r : Except QuizError α) (ts : Nat) :
    ApiBody α × Nat :=
  match r with
  | .ok a => (.success a ts, 200)
  | .error e => (.failure e (errorMessage e), httpStatus e)

/-! Frontend types, embedded from `frontend/src/types/quiz.ts`, and the
state reducer, embedded from `frontend/src/store/quiz.tsx`. TS `number`
fields holding percentages become `ℚ`, counts become `Nat`, `T | null`
and optional fields become `Option`. -/

/-- `QuizSessionResponse` of `frontend/src/types/quiz.ts`. -/
structure QuizSessionResponse where
  session_id : String
  total_questions : Nat
  current_index : Nat
  score : Nat
  accuracy : ℚ
  progress_percentage : ℚ
  is_completed : Bool
deriving Repr, DecidableEq

/-- `QuestionResponse` of `frontend/src/types/quiz.ts` (alias of its
`Question` interface: id, text, four options, optional category and
difficulty). -/
structure QuestionResponse where
  id : Nat
  text : String
  options : List String
  category : Option String
  difficulty : Option String
deriving Repr, DecidableEq

/-- `ProgressResponse` of `frontend/src/types/quiz.ts`. -/
structure ProgressResponse where
  session_id : String
  current_index : Nat
  total_questions : Nat
  score : Nat
  accuracy : ℚ
  progress_percentage : ℚ
  is_completed : Bool
  remaining_questions : Nat
deriving Repr, DecidableEq

/-- `WrongQuestionDetail` of `frontend/src/types/quiz.ts`. -/
structure WrongQuestionDetail where
  question : QuestionResponse
  selected_option : Nat
  correct_answer : Nat
  answered_at : String
deriving Repr, DecidableEq

/-- `ResultsResponse` of `frontend/src/types/quiz.ts`. -/
structure ResultsResponse where
  session_id : String
  total_questions : Nat
  score : Nat
  accuracy : ℚ
  wrong_count : Nat
  wrong_questions : List WrongQuestionDetail
  started_at : String
  completed_at : Option String
  duration_seconds : Option ℚ
deriving Repr, DecidableEq

/-- `CategoryStats` of `frontend/src/types/quiz.ts`. -/
structure CategoryStats where
  total : Nat
  correct : Nat
  accuracy : ℚ
deriving Repr, DecidableEq

/-- `StatisticsResponse` of `frontend/src/types/quiz.ts` (the optional
stat maps become association lists). -/
structure StatisticsResponse where
  total_sessions : Nat
  total_questions_answered : Nat
  total_correct_answers : Nat
  overall_accuracy : ℚ
  best_score : Nat
  best_accuracy : ℚ
  category_stats : Option (List (String × CategoryStats))
  difficulty_stats : Option (List (String × CategoryStats))
deriving Repr, DecidableEq

/-- The `settings` record inside `QuizState` of
`frontend/src/store/quiz.tsx`. -/
structure QuizSettings where
  soundEnabled : Bool
  animationsEnabled : Bool
deriving Repr, DecidableEq

/-- `QuizState` of `frontend/src/store/quiz.tsx`. -/
structure QuizState where
  currentSession : Option QuizSessionResponse
  currentQuestion : Option QuestionResponse
  progress : Option ProgressResponse
  lastResults : Option ResultsResponse
  statistics : Option StatisticsResponse
  loading : Bool
  error : Option String
  settings : QuizSettings
deriving Repr, DecidableEq

/-- The `Partial<QuizState[settings]>` payload of `UPDATE_SETTINGS` in
`frontend/src/store/quiz.tsx`: each field optionally overridden. -/
structure SettingsPatch where
  soundEnabled : Option Bool
  animationsEnabled : Option Bool
deriving Repr, DecidableEq

/-- The JS spread `{...settings, ...patch}` on the settings record. -/
def applyPatch (s : QuizSettings) (p : SettingsPatch) : QuizSettings :=
  ⟨p.soundEnabled.getD s.soundEnabled,
   p.animationsEnabled.getD s.animationsEnabled⟩

/-- `QuizAction` of `frontend/src/store/quiz.tsx`. -/
inductive QuizAction where
  | SET_LOADING (payload : Bool)
  | SET_ERROR (payload : Option String)
  | SET_CURRENT_SESSION (payload : Option QuizSessionResponse)
  | SET_CURRENT_QUESTION (payload : Option QuestionResponse)
  | SET_PROGRESS (payload : Option ProgressResponse)
  | SET_LAST_RESULTS (payload : Option ResultsResponse)
  | SET_STATISTICS (payload : Option StatisticsResponse)
  | UPDATE_SETTINGS (payload : SettingsPatch)
  | RESET_SESSION
  | CLEAR_ERROR
deriving DecidableEq

/-- `initialState` of `frontend/src/store/quiz.tsx`. -/
def initialState : QuizState :=
  { currentSession := none
    currentQuestion := none
    progress := none
    lastResults := none
    statistics := none
    loading := false
    error := none
    settings := ⟨false, true⟩ }

/-- `quizReducer` of `frontend/src/store/quiz.tsx`. In
`SET_CURRENT_SESSION` the JS conditional `action.payload ? x : y` tests
object-vs-null truthiness, i.e. `Option.isSome` here. -/
def quizReducer (state : QuizState) (action : QuizAction) : QuizState :=
  match action with
  | .SET_LOADING b =>
    { state with loading := b }
  | .SET_ERROR e =>
    { state with error := e, loading := false }
  | .CLEAR_ERROR =>
    { state with error := none }
  | .SET_CURRENT_SESSION p =>
    { state with
        currentSession := p
        currentQuestion := if p.isSome then state.currentQuestion else none
        progress := if p.isSome then state.progress else none
        lastResults := if p.isSome then none else state.lastResults }
  | .SET_CURRENT_QUESTION p =>
    { state with currentQuestion := p }
  | .SET_PROGRESS p =>
    { state with progress := p }
  | .SET_LAST_RESULTS p =>
    { state with lastResults := p }
  | .SET_STATISTICS p =>
    { state with statistics := p }
  | .UPDATE_SETTINGS p =>
    { state with settings := applyPatch state.settings p }
  | .RESET_SESSION =>
    { state with
        currentSession := none
        currentQuestion := none
        progress := none
        error := none }

/-- Modelled from the spec, sections 4 and 5: the Engine states reachable
from the empty store by successful `createSession` and `submitAnswer`
calls. Section 5 serializes the calls touching a given session, so the
sequential relation is the faithful state space. -/
inductive Reachable (pool : List Question) : EngineState → Prop where
  | init : Reachable pool initEngine
  | create (st : EngineState) (requested : Int)
      (category difficulty : Option String)
      (arrange : List Question → List Question) (newSid now : Nat)
      (st' : EngineState) (sess : Session) :
      Reachable pool st →
      createSession pool st requested category difficulty arrange newSid now
        = .ok (st', sess) →
      Reachable pool st'
  | answer (st : EngineState) (sid : Nat) (selected : Int) (now : Nat)
      (st' : EngineState) (r : AnswerResult) :
      Reachable pool st →
      submitAnswer pool st sid selected now = .ok (st', r) →
      Reachable pool st'

/-- Two catalog questions that agree on every answer-free field and may
differ only in `correctOptionIndex` and `explanation`. -/
def SameVisible (q1 q2 : Question) : Prop :=
  q1.id = q2.id ∧ q1.text = q2.text ∧ q1.options = q2.options ∧
  q1.category = q2.category ∧ q1.difficulty = q2.difficulty ∧
  q1.active = q2.active

/-- A concrete catalog question used to instantiate the theorems. -/
def sampleQuestion : Question :=
  ⟨1, "1+1?", ["1", "2", "3", "4"], 1, some "because", some "math",
   some "easy", true⟩

/-- `sampleQuestion` with a different answer key and explanation but the
same visible fields. -/
def sampleQuestionAlt : Question :=
  ⟨1, "1+1?", ["1", "2", "3", "4"], 3, none, some "math", some "easy",
   true⟩

/-- A concrete fresh one-question session over `sampleQuestion`. -/
def sampleSession : Session := ⟨7, [1], 0, [], 0, none⟩

/-- The store holding exactly `sampleSession`. -/
def sampleState : EngineState := ⟨[sampleSession], initStats⟩

/-- A concrete completed one-question session whose single answer was
wrong. -/
def sampleDoneSession : Session :=
  ⟨7, [1], 1, [⟨1, 0, false, 4⟩], 0, some 4⟩

/-- The store holding exactly `sampleDoneSession`. -/
def sampleDoneState : EngineState := ⟨[sampleDoneSession], initStats⟩

/-! Theorems. -/

/-- C9: for every `QuizState`, `quizReducer` on `RESET_SESSION` returns a
state whose `currentSession`, `currentQuestion`, `progress` and `error`
are null while `loading`, `settings`, `lastResults` and `statistics` are
exactly those of the input state. -/
theorem quizReducer_reset_session_frame (st : QuizState) :
    (quizReducer st .RESET_SESSION).currentSession = none ∧
    (quizReducer st .RESET_SESSION).currentQuestion = none ∧
    (quizReducer st .RESET_SESSION).progress = none ∧
    (quizReducer st .RESET_SESSION).error = none ∧
    (quizReducer st .RESET_SESSION).loading = st.loading ∧
    (quizReducer st .RESET_SESSION).settings = st.settings ∧
    (quizReducer st .RESET_SESSION).lastResults = st.lastResults ∧
    (quizReducer st .RESET_SESSION).statistics = st.statistics := by
  refine ⟨rfl, rfl, rfl, rfl, rfl, rfl, rfl, rfl⟩

/-- C10: `quizReducer` on `SET_CURRENT_SESSION` with a non-null payload
sets `currentSession` to that session and `lastResults` to null while
preserving `currentQuestion` and `progress`; with a null payload it nulls
`currentSession`, `currentQuestion` and `progress` while preserving
`lastResults`; every other field is unchanged in both cases. -/
theorem quizReducer_set_current_session_frame (st : QuizState)
    (sess : QuizSessionResponse) :
    ((quizReducer st (.SET_CURRENT_SESSION (some sess))).currentSession
        = some sess ∧
     (quizReducer st (.SET_CURRENT_SESSION (some sess))).lastResults
        = none ∧
     (quizReducer st (.SET_CURRENT_SESSION (some sess))).currentQuestion
        = st.currentQuestion ∧
     (quizReducer st (.SET_CURRENT_SESSION (some sess))).progress
        = st.progress ∧
     (quizReducer st (.SET_CURRENT_SESSION (some sess))).loading
        = st.loading ∧
     (quizReducer st (.SET_CURRENT_SESSION (some sess))).error
        = st.error ∧
     (quizReducer st (.SET_CURRENT_SESSION (some sess))).settings
        = st.settings ∧
     (quizReducer st (.SET_CURRENT_SESSION (some sess))).statistics
        = st.statistics) ∧
    ((quizReducer st (.SET_CURRENT_SESSION none)).currentSession
        = none ∧
     (quizReducer st (.SET_CURRENT_SESSION none)).currentQuestion
        = none ∧
     (quizReducer st (.SET_CURRENT_SESSION none)).progress
        = none ∧
     (quizReducer st (.SET_CURRENT_SESSION none)).lastResults
        = st.lastResults ∧
     (quizReducer st (.SET_CURRENT_SESSION none)).loading
        = st.loading ∧
     (quizReducer st (.SET_CURRENT_SESSION none)).error
        = st.error ∧
     (quizReducer st (.SET_CURRENT_SESSION none)).settings
        = st.settings ∧
     (quizReducer st (.SET_CURRENT_SESSION none)).statistics
        = st.statistics) := by
  constructor
  · exact ⟨rfl, rfl, rfl, rfl, rfl, rfl, rfl, rfl⟩
  · exact ⟨rfl, rfl, rfl, rfl, rfl, rfl, rfl, rfl⟩

/-- C8: the API layer wraps every Engine success as a
`{success: true, data, timestamp}` envelope with status 200 and every
failure as `{success: false, error: {code, message}}` with the status
the taxonomy of section 7 assigns (`InvalidRequest` and the bad option
index 400, `SessionNotFound` 404, `NoQuestionsAvailable`,
`SessionCompleted` and `SessionNotCompleted` 409, storage faults 500). -/
theorem wrapResponse_envelope_and_status {α : Type}
    (r : Except QuizError α) (ts : Nat) :
    (∀ a, r = .ok a → wrapResponse r ts = (.success a ts, 200)) ∧
    (∀ e, r = .error e →
        wrapResponse r ts = (.failure e (errorMessage e), httpStatus e)) ∧
    httpStatus .InvalidRequest = 400 ∧
    httpStatus .InvalidOption = 400 ∧
    httpStatus .SessionNotFound = 404 ∧
    httpStatus .NoQuestionsAvailable = 409 ∧
    httpStatus .SessionCompleted = 409 ∧
    httpStatus .SessionNotCompleted = 409 ∧
    httpStatus .InternalError = 500 := by
  refine ⟨?_, ?_, rfl, rfl, rfl, rfl, rfl, rfl, rfl⟩
  · intro a h; subst h; rfl
  · intro e h; subst h; rfl

/-- C8 witness: the envelope theorem applied to a concrete success and
the session-not-found failure. -/
theorem wrapResponse_envelope_and_status_witness :
    wrapResponse (.ok 5 : Except QuizError Nat) 3 = (.success 5 3, 200) ∧
    wrapResponse (.error .SessionNotFound : Except QuizError Nat) 3 =
      (.failure .SessionNotFound (errorMessage .SessionNotFound), 404) :=
  ⟨(wrapResponse_envelope_and_status (.ok 5) 3).1 5 rfl,
   ((wrapResponse_envelope_and_status (.error .SessionNotFound) 3).2.1
      .SessionNotFound rfl).trans (by rfl)⟩

/-- A found session carries the id it was looked up under. -/
theorem findSession_some_id {st : EngineState} {sid : Nat} {s : Session}
    (h : findSession st sid = some s) : s.sessionId = sid := by
  have := List.find?_some h
  simpa using this

/-- A found session is a member of the store. -/
theorem findSession_some_mem {st : EngineState} {sid : Nat} {s : Session}
    (h : findSession st sid = some s) : s ∈ st.sessions :=
  List.mem_of_find?_eq_some h

/-- Writing a session back under the id a lookup succeeded on makes the
next lookup return the written session. -/
theorem find_setSession (l : List Session) (sid : Nat) (s s' : Session)
    (hs' : s'.sessionId = sid)
    (h : l.find? (fun t => t.sessionId == sid) = some s) :
    (setSession l sid s').find? (fun t => t.sessionId == sid) = some s' := by
  induction l with
  | nil => simp [List.find?] at h
  | cons a l ih =>
    by_cases ha : a.sessionId = sid
    · simp [setSession, List.find?, ha, hs']
    · have ha' : (a.sessionId == sid) = false := by simp [ha]
      rw [List.find?_cons_of_neg _ (by simp [ha])] at h
      show List.find? _ ((if (a.sessionId == sid) = true then s' else a) :: _)
        = some s'
      rw [if_neg (by simp [ha]), List.find?_cons_of_neg _ (by simp [ha])]
      exact ih h

/-- Every member of the written-back store is an old member or the
written session. -/
theorem mem_setSession {l : List Session} {sid : Nat} {s' x : Session}
    (h : x ∈ setSession l sid s') : x ∈ l ∨ x = s' := by
  rcases List.mem_map.mp h with ⟨a, ha, rfl⟩
  by_cases hid : (a.sessionId == sid) = true
  · right; simp [hid]
  · left; simpa [hid] using ha

/-- C2: `submitAnswer` fails `SessionNotFound` on an unknown session id,
`SessionCompleted` on every call (any option, any time) once
`currentIndex = N` — as does `getCurrentQuestion` — and `InvalidOption`
when the selected index lies outside `[0,3]` on an in-progress session;
errors return no state, so a completed session is never modified. -/
theorem submitAnswer_error_cases (pool : List Question) (st : EngineState)
    (sid : Nat) (selected : Int) (now : Nat) :
    (findSession st sid = none →
       submitAnswer pool st sid selected now = .error .SessionNotFound ∧
       getCurrentQuestion pool st sid = .error .SessionNotFound) ∧
    (∀ s, findSession st sid = some s → s.currentIndex = s.N →
       submitAnswer pool st sid selected now = .error .SessionCompleted ∧
       getCurrentQuestion pool st sid = .error .SessionCompleted) ∧
    (∀ s, findSession st sid = some s → s.currentIndex < s.N →
       (selected < 0 ∨ 3 < selected) →
       submitAnswer pool st sid selected now = .error .InvalidOption) := by
  refine ⟨?_, ?_, ?_⟩
  · intro h
    constructor
    · unfold submitAnswer; rw [h]
    · unfold getCurrentQuestion; rw [h]
  · intro s hs hidx
    have hb : (s.currentIndex == s.N) = true := by simpa using hidx
    constructor
    · unfold submitAnswer; rw [hs]; simp [hb]
    · unfold getCurrentQuestion; rw [hs]; simp [hb]
  · intro s hs hidx hsel
    have hb : (s.currentIndex == s.N) = false := by
      simp [Nat.ne_of_lt hidx]
    have hb2 : (decide (selected < 0) || decide (3 < selected)) = true := by
      rcases hsel with h | h <;> simp [h]
    unfold submitAnswer
    rw [hs]
    simp [hb, hb2]

/-- C2 witness: the three error cases at concrete stores — an unknown id,
a completed session, and an out-of-range option index. -/
theorem submitAnswer_error_cases_witness :
    submitAnswer [sampleQuestion] sampleState 99 0 0
      = .error .SessionNotFound ∧
    submitAnswer [sampleQuestion] sampleDoneState 7 2 9
      = .error .SessionCompleted ∧
    submitAnswer [sampleQuestion] sampleState 7 4 0
      = .error .InvalidOption :=
  ⟨((submitAnswer_error_cases [sampleQuestion] sampleState 99 0 0).1
      (by decide)).1,
   ((submitAnswer_error_cases [sampleQuestion] sampleDoneState 7 2 9).2.1
      sampleDoneSession (by decide) (by decide)).1,
   (submitAnswer_error_cases [sampleQuestion] sampleState 7 4 0).2.2
      sampleSession (by decide) (by decide) (Or.inr (by decide))⟩

/-- C1: on an in-progress session and a valid option index,
`submitAnswer` scores the current question as
`correct = (selected == correctOptionIndex)`, appends exactly one
AnswerRecord, increments `currentIndex`, and exactly when the increment
reaches `N` it sets `completedAt`, completes the session and folds it
into the lifetime statistics synchronously (otherwise the statistics are
untouched); the returned `is_session_completed` flag reflects the
session's completion. -/
theorem submitAnswer_advance (pool : List Question) (st : EngineState)
    (sid : Nat) (selected : Int) (now : Nat) (s : Session) (q : Question)
    (hfind : findSession st sid = some s)
    (hprog : s.currentIndex < s.N)
    (hlo : 0 ≤ selected) (hhi : selected ≤ 3)
    (hq : currentQuestionOf pool s = some q) :
    ∃ st' r s',
      submitAnswer pool st sid selected now = .ok (st', r) ∧
      findSession st' sid = some s' ∧
      r.isCorrect = (selected.toNat == q.correctOptionIndex) ∧
      s'.answers = s.answers ++
        [⟨q.id, selected.toNat, selected.toNat == q.correctOptionIndex,
          now⟩] ∧
      s'.currentIndex = s.currentIndex + 1 ∧
      s'.questionSequence = s.questionSequence ∧
      (s.currentIndex + 1 = s.N →
        s'.completedAt = some now ∧ s'.isCompleted = true ∧
        st'.stats
          = recordCompletedSession st.stats s'.score s'.N s'.accuracy) ∧
      (s.currentIndex + 1 ≠ s.N →
        st'.stats = st.stats ∧ s'.isCompleted = false ∧
        s'.completedAt = s.completedAt) ∧
      r.isSessionCompleted = s'.isCompleted := by
  have hsid : s.sessionId = sid := findSession_some_id hfind
  have hb : ¬ ((s.currentIndex == s.N) = true) := by
    simp [Nat.ne_of_lt hprog]
  have hb2 : ¬ ((selected < 0 || 3 < selected) = true) := by
    simp [not_lt.mpr hlo, not_lt.mpr hhi]
  refine ⟨⟨setSession st.sessions sid (advanceSession s q selected now),
           submitStats st.stats (advanceSession s q selected now)⟩,
    answerResultOf sid q selected (advanceSession s q selected now),
    advanceSession s q selected now,
    ?_, ?_, rfl, rfl, rfl, rfl, ?_, ?_, rfl⟩
  · unfold submitAnswer
    rw [hfind]
    simp only [hq, if_neg hb, if_neg hb2]
  · exact find_setSession st.sessions sid s _ (by simpa using hsid) hfind
  · intro h
    have hc : (s.currentIndex + 1 == s.N) = true := by simpa using h
    refine ⟨by simp [advanceSession, hc], ?_, ?_⟩
    · simp [advanceSession, Session.isCompleted, Session.N, h]
    · simp [submitStats, advanceSession, Session.isCompleted, Session.N, h]
  · intro h
    have hc : (s.currentIndex + 1 == s.N) = false := by simpa using h
    have h' : ¬ (s.currentIndex + 1 = s.questionSequence.length) := by
      simpa [Session.N] using h
    refine ⟨?_, ?_, by simp [advanceSession, hc]⟩
    · simp [submitStats, advanceSession, Session.isCompleted, Session.N, h']
    · simp [advanceSession, Session.isCompleted, Session.N, h']

/-- C1 witness: the advance theorem at the concrete one-question store,
answering the last question correctly. -/
theorem submitAnswer_advance_witness :
    ∃ st' r s',
      submitAnswer [sampleQuestion] sampleState 7 1 4 = .ok (st', r) ∧
      findSession st' 7 = some s' ∧
      r.isCorrect = ((1 : Int).toNat == sampleQuestion.correctOptionIndex) ∧
      s'.answers = sampleSession.answers ++
        [⟨sampleQuestion.id, (1 : Int).toNat,
          (1 : Int).toNat == sampleQuestion.correctOptionIndex, 4⟩] ∧
      s'.currentIndex = sampleSession.currentIndex + 1 ∧
      s'.questionSequence = sampleSession.questionSequence ∧
      (sampleSession.currentIndex + 1 = sampleSession.N →
        s'.completedAt = some 4 ∧ s'.isCompleted = true ∧
        st'.stats = recordCompletedSession sampleState.stats s'.score
          s'.N s'.accuracy) ∧
      (sampleSession.currentIndex + 1 ≠ sampleSession.N →
        st'.stats = sampleState.stats ∧ s'.isCompleted = false ∧
        s'.completedAt = sampleSession.completedAt) ∧
      r.isSessionCompleted = s'.isCompleted :=
  submitAnswer_advance [sampleQuestion] sampleState 7 1 4 sampleSession
    sampleQuestion rfl (by decide) (by decide) (by decide) rfl

/-- C3: with any permutation-only shuffle and a duplicate-free catalog,
`createSession` rejects `requested ≤ 0` with `InvalidRequest`, rejects an
empty filtered pool with `NoQuestionsAvailable` (persisting nothing),
and otherwise succeeds — even when `requested` exceeds the pool — with
`total_questions = min(requested, poolSize)`, a duplicate-free question
sequence, and the fresh session prepended to the store. -/
theorem createSession_spec (pool : List Question) (st : EngineState)
    (requested : Int) (category difficulty : Option String)
    (arrange : List Question → List Question) (newSid now : Nat)
    (hperm : ∀ l, (arrange l).Perm l)
    (hids : (pool.map (fun q => q.id)).Nodup) :
    (requested ≤ 0 →
       createSession pool st requested category difficulty arrange newSid
         now = .error .InvalidRequest) ∧
    (0 < requested →
       (pool.filter (matchesFilter category difficulty)).length = 0 →
       createSession pool st requested category difficulty arrange newSid
         now = .error .NoQuestionsAvailable) ∧
    (0 < requested →
       (pool.filter (matchesFilter category difficulty)).length ≠ 0 →
       ∃ st' sess,
         createSession pool st requested category difficulty arrange
           newSid now = .ok (st', sess) ∧
         sess.N = min requested.toNat
           (pool.filter (matchesFilter category difficulty)).length ∧
         sess.questionSequence.Nodup ∧
         st'.sessions = sess :: st.sessions ∧
         st'.stats = st.stats ∧
         sess.currentIndex = 0 ∧ sess.answers = []) := by
  refine ⟨?_, ?_, ?_⟩
  · intro h
    simp [createSession, h]
  · intro hpos hlen
    simp [createSession, not_le.mpr hpos, hlen]
  · intro hpos hlen
    refine ⟨⟨(⟨newSid,
        ((arrange (pool.filter (matchesFilter category difficulty))).take
            (min requested.toNat
              (arrange (pool.filter
                (matchesFilter category difficulty))).length)).map
          (fun q => q.id), 0, [], now, none⟩ : Session) :: st.sessions,
        st.stats⟩,
      ⟨newSid,
        ((arrange (pool.filter (matchesFilter category difficulty))).take
            (min requested.toNat
              (arrange (pool.filter
                (matchesFilter category difficulty))).length)).map
          (fun q => q.id), 0, [], now, none⟩,
      ?_, ?_, ?_, rfl, rfl, rfl, rfl⟩
    · simp only [createSession, if_neg (not_le.mpr hpos), if_neg hlen]
    · have hl := (hperm
        (pool.filter (matchesFilter category difficulty))).length_eq
      simp only [Session.N, List.length_map, List.length_take]
      omega
    · have h1 : ((pool.filter (matchesFilter category difficulty)).map
          (fun q => q.id)).Nodup :=
        List.Nodup.sublist
          ((List.filter_sublist pool).map (fun q => q.id)) hids
      have h2 : (((arrange (pool.filter
          (matchesFilter category difficulty)))).map
            (fun q => q.id)).Nodup :=
        ((hperm (pool.filter (matchesFilter category difficulty))).symm.map
          (fun q => q.id)).nodup h1
      dsimp only
      exact List.Nodup.sublist
        ((List.take_sublist _ _).map (fun q : Question => q.id)) h2

/-- C3 witness: requesting two questions from a one-question pool yields
a one-question, duplicate-free session. -/
theorem createSession_spec_witness :
    ∃ st' sess,
      createSession [sampleQuestion] initEngine 2 none none (fun l => l)
        7 0 = .ok (st', sess) ∧
      sess.N = min (Int.toNat 2)
        ([sampleQuestion].filter (matchesFilter none none)).length ∧
      sess.questionSequence.Nodup ∧
      st'.sessions = sess :: initEngine.sessions ∧
      st'.stats = initEngine.stats ∧
      sess.currentIndex = 0 ∧ sess.answers = [] :=
  (createSession_spec [sampleQuestion] initEngine 2 none none
      (fun l => l) 7 0 (fun l => List.Perm.refl l) (by decide)).2.2
    (by decide) (by decide)

/-- Inversion of a successful `createSession`: the new session starts
empty at index 0 and is prepended to the untouched store. -/
theorem createSession_ok_inv {pool : List Question} {st : EngineState}
    {requested : Int} {category difficulty : Option String}
    {arrange : List Question → List Question} {newSid now : Nat}
    {st' : EngineState} {sess : Session}
    (h : createSession pool st requested category difficulty arrange newSid
      now = .ok (st', sess)) :
    st'.sessions = sess :: st.sessions ∧ st'.stats = st.stats ∧
    sess.currentIndex = 0 ∧ sess.answers = [] := by
  simp only [createSession] at h
  split at h
  · exact absurd h (by simp)
  · split at h
    · exact absurd h (by simp)
    · simp only [Except.ok.injEq, Prod.mk.injEq] at h
      obtain ⟨h1, h2⟩ := h
      subst h1; subst h2
      exact ⟨rfl, rfl, rfl, rfl⟩

/-- Inversion of a successful `submitAnswer`: some in-progress stored
session was advanced on its current question and written back, and the
response was built from the advanced session. -/
theorem submitAnswer_ok_inv {pool : List Question} {st : EngineState}
    {sid : Nat} {selected : Int} {now : Nat} {st' : EngineState}
    {r : AnswerResult}
    (h : submitAnswer pool st sid selected now = .ok (st', r)) :
    ∃ s q, findSession st sid = some s ∧ s.currentIndex ≠ s.N ∧
      currentQuestionOf pool s = some q ∧
      st' = ⟨setSession st.sessions sid (advanceSession s q selected now),
             submitStats st.stats (advanceSession s q selected now)⟩ ∧
      r = answerResultOf sid q selected (advanceSession s q selected now)
    := by
  unfold submitAnswer at h
  split at h
  · exact absurd h (by simp)
  · rename_i s hf
    split at h
    · exact absurd h (by simp)
    · rename_i hne
      split at h
      · exact absurd h (by simp)
      · split at h
        · exact absurd h (by simp)
        · rename_i q hq
          simp only [Except.ok.injEq, Prod.mk.injEq] at h
          obtain ⟨h1, h2⟩ := h
          refine ⟨s, q, hf, by simpa using hne, hq, ?_, h2.symm⟩
          rw [← h1]

/-- The structural invariant of spec section 3 holds for every session of
every reachable Engine state. -/
theorem reachable_invariant (pool : List Question) (st : EngineState)
    (h : Reachable pool st) :
    ∀ s ∈ st.sessions,
      s.currentIndex ≤ s.N ∧ s.answers.length = s.currentIndex := by
  induction h with
  | init =>
    intro s hs
    simp [initEngine] at hs
  | create st requested category difficulty arrange newSid now st' sess
      hr hok ih =>
    intro s hs
    obtain ⟨hsl, _, hidx, hans⟩ := createSession_ok_inv hok
    rw [hsl] at hs
    rcases List.mem_cons.mp hs with hnew | hold
    · subst hnew
      exact ⟨by simp [hidx], by simp [hans, hidx]⟩
    · exact ih s hold
  | answer st sid selected now st' r hr hok ih =>
    intro x hx
    obtain ⟨s, q, hf, hne, hq, hst', hres⟩ := submitAnswer_ok_inv hok
    have hmem : s ∈ st.sessions := findSession_some_mem hf
    have hs := ih s hmem
    rw [hst'] at hx
    rcases mem_setSession hx with hold | hnew
    · exact ih x hold
    · subst hnew
      have hlt : s.currentIndex < s.N := lt_of_le_of_ne hs.1 hne
      constructor
      · simpa [advanceSession, Session.N] using hlt
      · simp [advanceSession, hs.2]

/-- C4: in every reachable Engine state, every stored session satisfies
`0 ≤ currentIndex ≤ N` and `len(answers) = currentIndex`, and its derived
views satisfy `score = count(answers where correct)`,
`accuracy = score/len(answers)*100` (0 on no answers),
`progress_percentage = currentIndex/N*100`, `remaining = N - currentIndex`
and `isCompleted ↔ currentIndex = N`. -/
theorem session_invariants (pool : List Question) (st : EngineState)
    (hreach : Reachable pool st) (s : Session) (hmem : s ∈ st.sessions) :
    0 ≤ s.currentIndex ∧ s.currentIndex ≤ s.N ∧
    s.answers.length = s.currentIndex ∧
    s.score = (s.answers.filter (fun a => a.correct)).length ∧
    s.accuracy = (if s.answers.length = 0 then 0
      else (s.score : ℚ) / (s.answers.length : ℚ) * 100) ∧
    s.progressPercentage = (s.currentIndex : ℚ) / (s.N : ℚ) * 100 ∧
    s.remaining = s.N - s.currentIndex ∧
    (s.isCompleted = true ↔ s.currentIndex = s.N) := by
  have h := reachable_invariant pool st hreach s hmem
  exact ⟨Nat.zero_le _, h.1, h.2, rfl, rfl, rfl, rfl,
    by simp [Session.isCompleted]⟩

/-- C4 witness: the invariants at the concrete reachable one-session
store produced by a `createSession` call on the sample pool. -/
theorem session_invariants_witness :
    0 ≤ sampleSession.currentIndex ∧
    sampleSession.currentIndex ≤ sampleSession.N ∧
    sampleSession.answers.length = sampleSession.currentIndex ∧
    sampleSession.score =
      (sampleSession.answers.filter (fun a => a.correct)).length ∧
    sampleSession.accuracy = (if sampleSession.answers.length = 0 then 0
      else (sampleSession.score : ℚ) /
        (sampleSession.answers.length : ℚ) * 100) ∧
    sampleSession.progressPercentage =
      (sampleSession.currentIndex : ℚ) / (sampleSession.N : ℚ) * 100 ∧
    sampleSession.remaining
      = sampleSession.N - sampleSession.currentIndex ∧
    (sampleSession.isCompleted = true ↔
      sampleSession.currentIndex = sampleSession.N) :=
  session_invariants [sampleQuestion] sampleState
    (Reachable.create initEngine 1 none none (fun l => l) 7 0 sampleState
      sampleSession Reachable.init rfl)
    sampleSession (List.Mem.head _)

/-- Closed form of folding completed sessions into an arbitrary starting
aggregate: counters add up, the set sums accumulate, the maxima fold. -/
theorem foldRecord_char (l : List (Nat × Nat × ℚ)) :
    ∀ st0 : LifetimeStatistics,
    l.foldl (fun st x => recordCompletedSession st x.1 x.2.1 x.2.2) st0 =
      ⟨st0.totalSessions + l.length,
       st0.totalQuestionsAnswered + (l.map (fun x => x.2.1)).sum,
       st0.totalCorrectAnswers + (l.map (fun x => x.1)).sum,
       (l.map (fun x => x.1)).foldl max st0.bestScore,
       (l.map (fun x => x.2.2)).foldl max st0.bestAccuracy⟩ := by
  induction l with
  | nil => intro st0; simp
  | cons a l ih =>
    intro st0
    rw [List.foldl_cons, ih]
    simp only [recordCompletedSession, List.map_cons, List.sum_cons,
      List.length_cons, List.foldl_cons, LifetimeStatistics.mk.injEq,
      and_true, true_and]
    all_goals omega

/-- A left fold of `max` ends at its start value or at a list element. -/
theorem foldl_max_init_or_mem {α : Type} [LinearOrder α] (l : List α)
    (b : α) : l.foldl max b = b ∨ l.foldl max b ∈ l := by
  induction l generalizing b with
  | nil => exact Or.inl rfl
  | cons a l ih =>
    rcases ih (max b a) with h | h
    · rcases le_total a b with hab | hab
      · exact Or.inl (by rw [List.foldl_cons, h, max_eq_left hab])
      · refine Or.inr ?_
        rw [List.foldl_cons, h, max_eq_right hab]
        exact List.mem_cons_self a l
    · exact Or.inr (by rw [List.foldl_cons]; exact List.mem_cons_of_mem a h)

/-- A left fold of `max` bounds its start value and every list element. -/
theorem le_foldl_max {α : Type} [LinearOrder α] (l : List α) (b : α) :
    b ≤ l.foldl max b ∧ ∀ x ∈ l, x ≤ l.foldl max b := by
  induction l generalizing b with
  | nil => exact ⟨le_refl b, by simp⟩
  | cons a l ih =>
    obtain ⟨h1, h2⟩ := ih (max b a)
    refine ⟨le_trans (le_max_left b a) h1, ?_⟩
    intro x hx
    rcases List.mem_cons.mp hx with rfl | hx
    · exact le_trans (le_max_right b x) h1
    · exact h2 x hx

/-- C5: after a non-empty run of completed sessions
`(s_i, n_i, a_i)` with nonnegative accuracies, the aggregate counts the
sessions, sums the questions and the scores, attains the maximal score
and the maximal accuracy, and `getStatistics` derives
`overallAccuracy = Σs_i / Σn_i * 100` (0 when `Σn_i = 0`). -/
theorem statistics_after_sessions (l : List (Nat × Nat × ℚ))
    (hne : l ≠ []) (hacc : ∀ x ∈ l, 0 ≤ x.2.2) :
    (statsFold l).totalSessions = l.length ∧
    (statsFold l).totalQuestionsAnswered = (l.map (fun x => x.2.1)).sum ∧
    (statsFold l).totalCorrectAnswers = (l.map (fun x => x.1)).sum ∧
    (statsFold l).bestScore ∈ l.map (fun x => x.1) ∧
    (∀ sc ∈ l.map (fun x => x.1), sc ≤ (statsFold l).bestScore) ∧
    (statsFold l).bestAccuracy ∈ l.map (fun x => x.2.2) ∧
    (∀ a ∈ l.map (fun x => x.2.2), a ≤ (statsFold l).bestAccuracy) ∧
    (getStatistics (statsFold l)).overallAccuracy =
      (if (l.map (fun x => x.2.1)).sum = 0 then 0
       else (((l.map (fun x => x.1)).sum : ℕ) : ℚ) /
         (((l.map (fun x => x.2.1)).sum : ℕ) : ℚ) * 100) := by
  have hch : statsFold l =
      ⟨l.length, (l.map (fun x => x.2.1)).sum, (l.map (fun x => x.1)).sum,
       (l.map (fun x => x.1)).foldl max 0,
       (l.map (fun x => x.2.2)).foldl max 0⟩ := by
    have h := foldRecord_char l initStats
    simpa [statsFold, initStats] using h
  refine ⟨by rw [hch], by rw [hch], by rw [hch], ?_, ?_, ?_, ?_, ?_⟩
  · rw [hch]
    rcases foldl_max_init_or_mem (l.map (fun x => x.1)) 0 with h0 | hm
    · obtain ⟨y, hy⟩ := List.exists_mem_of_ne_nil l hne
      have hy' : y.1 ∈ l.map (fun x => x.1) := List.mem_map_of_mem _ hy
      have hle : y.1 ≤ 0 :=
        le_of_le_of_eq ((le_foldl_max _ 0).2 y.1 hy') h0
      show (l.map (fun x => x.1)).foldl max 0 ∈ l.map (fun x => x.1)
      rw [h0]
      simpa [Nat.le_zero.mp hle] using hy'
    · exact hm
  · intro sc hsc
    rw [hch]
    exact (le_foldl_max _ 0).2 sc hsc
  · rw [hch]
    rcases foldl_max_init_or_mem (l.map (fun x => x.2.2)) 0 with h0 | hm
    · obtain ⟨y, hy⟩ := List.exists_mem_of_ne_nil l hne
      have hy' : y.2.2 ∈ l.map (fun x => x.2.2) := List.mem_map_of_mem _ hy
      have hle : y.2.2 ≤ 0 :=
        le_of_le_of_eq ((le_foldl_max _ 0).2 y.2.2 hy') h0
      have hge : 0 ≤ y.2.2 := hacc y hy
      show (l.map (fun x => x.2.2)).foldl max 0 ∈ l.map (fun x => x.2.2)
      rw [h0, ← le_antisymm hle hge]
      exact hy'
    · exact hm
  · intro a ha
    rw [hch]
    exact (le_foldl_max _ 0).2 a ha
  · rw [hch]
    rfl

/-- C5 witness: a single completed session of 2 questions, score 1,
accuracy 50. -/
theorem statistics_after_sessions_witness :
    (statsFold [(1, 2, (50 : ℚ))]).totalSessions
        = [(1, 2, (50 : ℚ))].length ∧
    (statsFold [(1, 2, (50 : ℚ))]).totalQuestionsAnswered
        = ([(1, 2, (50 : ℚ))].map (fun x => x.2.1)).sum ∧
    (statsFold [(1, 2, (50 : ℚ))]).totalCorrectAnswers
        = ([(1, 2, (50 : ℚ))].map (fun x => x.1)).sum ∧
    (statsFold [(1, 2, (50 : ℚ))]).bestScore
        ∈ [(1, 2, (50 : ℚ))].map (fun x => x.1) ∧
    (∀ sc ∈ [(1, 2, (50 : ℚ))].map (fun x => x.1),
        sc ≤ (statsFold [(1, 2, (50 : ℚ))]).bestScore) ∧
    (statsFold [(1, 2, (50 : ℚ))]).bestAccuracy
        ∈ [(1, 2, (50 : ℚ))].map (fun x => x.2.2) ∧
    (∀ a ∈ [(1, 2, (50 : ℚ))].map (fun x => x.2.2),
        a ≤ (statsFold [(1, 2, (50 : ℚ))]).bestAccuracy) ∧
    (getStatistics (statsFold [(1, 2, (50 : ℚ))])).overallAccuracy =
      (if ([(1, 2, (50 : ℚ))].map (fun x => x.2.1)).sum = 0 then 0
       else ((([(1, 2, (50 : ℚ))].map (fun x => x.1)).sum : ℕ) : ℚ) /
         ((([(1, 2, (50 : ℚ))].map (fun x => x.2.1)).sum : ℕ) : ℚ) * 100) :=
  statistics_after_sessions [(1, 2, (50 : ℚ))] (by simp)
    (by intro x hx; rw [List.mem_singleton] at hx; subst hx; norm_num)

/-- When every wrong answer's question resolves in the catalog, the
wrong-answer rows are exactly the records with `correct = false`, in
order, carrying the learner's choice and answer time, and each row's
`correctAnswer` is the catalog's answer key for that question. -/
theorem wrongDetails_char (pool : List Question)
    (answers : List AnswerRecord)
    (h : ∀ a ∈ answers, a.correct = false →
      ∃ q, pool.find? (fun t => t.id == a.questionId) = some q) :
    (wrongDetails pool answers).map
        (fun d => (d.questionId, d.selectedOption, d.answeredAt)) =
      (answers.filter (fun a => !a.correct)).map
        (fun a => (a.questionId, a.selectedOptionIndex, a.answeredAt)) ∧
    ∀ d ∈ wrongDetails pool answers,
      ∃ q, pool.find? (fun t => t.id == d.questionId) = some q ∧
        d.correctAnswer = q.correctOptionIndex := by
  induction answers with
  | nil => exact ⟨rfl, by simp [wrongDetails]⟩
  | cons a answers ih =>
    have htail := ih (fun x hx => h x (List.mem_cons_of_mem a hx))
    by_cases hc : a.correct = true
    · refine ⟨?_, ?_⟩
      · simpa [wrongDetails, List.filterMap_cons, List.filter_cons, hc]
          using htail.1
      · intro d hd
        apply htail.2
        simpa [wrongDetails, List.filterMap_cons, hc] using hd
    · have hcf : a.correct = false := by simpa using hc
      obtain ⟨q, hq⟩ := h a (List.mem_cons_self a answers) hcf
      refine ⟨?_, ?_⟩
      · simpa [wrongDetails, List.filterMap_cons, List.filter_cons, hcf,
          hq] using htail.1
      · intro d hd
        have hd' : d = (⟨a.questionId, a.selectedOptionIndex,
            q.correctOptionIndex, a.answeredAt⟩ : WrongDetail) ∨
            d ∈ wrongDetails pool answers := by
          simpa [wrongDetails, List.filterMap_cons, hcf, hq] using hd
        rcases hd' with rfl | hd'
        · exact ⟨q, hq, rfl⟩
        · exact htail.2 d hd'

/-- C6: `getResults` fails `SessionNotFound` on an unknown id and
`SessionNotCompleted` before completion; after completion it reports
exactly the AnswerRecords with `correct = false`, in original question
order, each with the learner's selected option and the catalog's correct
option, next to the session's score and accuracy. -/
theorem getResults_spec (pool : List Question) (st : EngineState)
    (sid : Nat) :
    (findSession st sid = none →
       getResults pool st sid = .error .SessionNotFound) ∧
    (∀ s, findSession st sid = some s → s.currentIndex ≠ s.N →
       getResults pool st sid = .error .SessionNotCompleted) ∧
    (∀ s, findSession st sid = some s → s.currentIndex = s.N →
       (∀ a ∈ s.answers, a.correct = false →
          ∃ q, pool.find? (fun t => t.id == a.questionId) = some q) →
       ∃ rep, getResults pool st sid = .ok rep ∧
         rep.wrongQuestions.map
             (fun d => (d.questionId, d.selectedOption, d.answeredAt)) =
           (s.answers.filter (fun a => !a.correct)).map
             (fun a =>
               (a.questionId, a.selectedOptionIndex, a.answeredAt)) ∧
         (∀ d ∈ rep.wrongQuestions,
            ∃ q, pool.find? (fun t => t.id == d.questionId) = some q ∧
              d.correctAnswer = q.correctOptionIndex) ∧
         rep.wrongCount = rep.wrongQuestions.length ∧
         rep.score = s.score ∧ rep.totalQuestions = s.N ∧
         rep.accuracy = s.accuracy) := by
  refine ⟨?_, ?_, ?_⟩
  · intro h
    unfold getResults
    rw [h]
  · intro s hs hne
    have hb : ¬ (s.isCompleted = true) := by
      simp [Session.isCompleted, hne]
    unfold getResults
    rw [hs]
    simp [if_neg hb]
  · intro s hs hidx hlook
    have hb : s.isCompleted = true := by simp [Session.isCompleted, hidx]
    obtain ⟨hmap, hcorr⟩ := wrongDetails_char pool s.answers hlook
    refine ⟨⟨s.sessionId, s.N, s.score, s.accuracy,
        (wrongDetails pool s.answers).length, wrongDetails pool s.answers,
        s.startedAt, s.completedAt,
        s.completedAt.map (fun t => t - s.startedAt)⟩,
      ?_, hmap, hcorr, rfl, rfl, rfl, rfl⟩
    unfold getResults
    rw [hs]
    simp [hb]

/-- C6 witness: results of the concrete completed one-question session
whose single answer was wrong. -/
theorem getResults_spec_witness :
    ∃ rep,
      getResults [sampleQuestion] sampleDoneState 7 = .ok rep ∧
      rep.wrongQuestions.map
          (fun d => (d.questionId, d.selectedOption, d.answeredAt)) =
        (sampleDoneSession.answers.filter (fun a => !a.correct)).map
          (fun a => (a.questionId, a.selectedOptionIndex, a.answeredAt)) ∧
      (∀ d ∈ rep.wrongQuestions,
         ∃ q, [sampleQuestion].find? (fun t => t.id == d.questionId)
             = some q ∧
           d.correctAnswer = q.correctOptionIndex) ∧
      rep.wrongCount = rep.wrongQuestions.length ∧
      rep.score = sampleDoneSession.score ∧
      rep.totalQuestions = sampleDoneSession.N ∧
      rep.accuracy = sampleDoneSession.accuracy :=
  (getResults_spec [sampleQuestion] sampleDoneState 7).2.2
    sampleDoneSession rfl rfl
    (fun a ha _ => ⟨sampleQuestion, by
      have ha' : a ∈ [(⟨1, 0, false, 4⟩ : AnswerRecord)] := ha
      rw [List.mem_singleton] at ha'
      subst ha'
      rfl⟩)

/-- Looking a question up by id returns answer-free-equal results on two
catalogs whose entries agree on every answer-free field. -/
theorem find_visible_eq {l1 l2 : List Question}
    (hrel : List.Forall₂ SameVisible l1 l2) (qid : Nat) :
    Option.map Question.toPublic (l1.find? (fun q => q.id == qid)) =
      Option.map Question.toPublic (l2.find? (fun q => q.id == qid)) := by
  induction hrel with
  | nil => rfl
  | cons hab hr ih =>
    rename_i a b l1' l2'
    obtain ⟨hid, htext, hopts, hcat, hdiff, hact⟩ := hab
    cases hq : (a.id == qid) with
    | true =>
      have hq2 : (b.id == qid) = true := by rw [← hid]; exact hq
      simp only [List.find?_cons, hq, hq2]
      simp [Question.toPublic, hid, htext, hopts, hcat, hdiff]
    | false =>
      have hq2 : (b.id == qid) = false := by rw [← hid]; exact hq
      simp only [List.find?_cons, hq, hq2]
      exact ih

/-- C7: `getCurrentQuestion` returns the catalog question at
`questionSequence[currentIndex]` stripped to its public projection —
a shape with no `correctOptionIndex` and no `explanation` — and its
response is identical on two catalogs that differ only in answer keys
and explanations. -/
theorem getCurrentQuestion_no_leak (pool1 pool2 : List Question)
    (st : EngineState) (sid : Nat)
    (hrel : List.Forall₂ SameVisible pool1 pool2) :
    getCurrentQuestion pool1 st sid = getCurrentQuestion pool2 st sid ∧
    (∀ s q, findSession st sid = some s → s.currentIndex < s.N →
       currentQuestionOf pool1 s = some q →
       getCurrentQuestion pool1 st sid = .ok q.toPublic) := by
  constructor
  · unfold getCurrentQuestion
    cases hf : findSession st sid with
    | none => rfl
    | some s =>
      by_cases hb : (s.currentIndex == s.N) = true
      · simp [hb]
      · have hvis : Option.map Question.toPublic (currentQuestionOf pool1 s)
            = Option.map Question.toPublic (currentQuestionOf pool2 s) := by
          unfold currentQuestionOf
          cases s.questionSequence.get? s.currentIndex with
          | none => rfl
          | some qid => exact find_visible_eq hrel qid
        simp only [if_neg hb]
        cases h1 : currentQuestionOf pool1 s with
        | none =>
          cases h2 : currentQuestionOf pool2 s with
          | none => rfl
          | some q2 => rw [h1, h2] at hvis; exact absurd hvis (by simp)
        | some q1 =>
          cases h2 : currentQuestionOf pool2 s with
          | none => rw [h1, h2] at hvis; exact absurd hvis (by simp)
          | some q2 =>
            rw [h1, h2] at hvis
            simp at hvis
            simp [hvis]
  · intro s q hf hlt hq
    have hb : (s.currentIndex == s.N) = false := by
      simp [Nat.ne_of_lt hlt]
    unfold getCurrentQuestion
    rw [hf]
    simp [hb, hq]

/-- C7 witness: the sample store queried over two catalogs that differ
only in the answer key and explanation of the current question. -/
theorem getCurrentQuestion_no_leak_witness :
    getCurrentQuestion [sampleQuestion] sampleState 7
      = getCurrentQuestion [sampleQuestionAlt] sampleState 7 ∧
    (∀ s q, findSession sampleState 7 = some s →
       s.currentIndex < s.N →
       currentQuestionOf [sampleQuestion] s = some q →
       getCurrentQuestion [sampleQuestion] sampleState 7
         = .ok q.toPublic) :=
  getCurrentQuestion_no_leak [sampleQuestion] [sampleQuestionAlt]
    sampleState 7
    (List.Forall₂.cons ⟨rfl, rfl, rfl, rfl, rfl, rfl⟩ List.Forall₂.nil)

end Quiz
